import Mathlib

/-!
# Shallow embedding of the ViscoCorrectCore correction-factor engine

This file embeds, in Lean, the parts of the ViscoCorrectCore repository that
the specification claims talk about:

* `impl::AccuracyType` (src/src/accuracy_type.cpp, the exact-decimal type):
  state, string parsing, multiplication, division guards, addition,
  subtraction, equality;
* `Calculator` (src/src/calculator.cpp): input validation, the piecewise
  linear scale mapping `FitToScale`, the line-intersection stage and the
  curve-evaluation stage of `Calculate`;
* `impl::ConvertViscosityTomm2s` (src/include/spauly/vccore/impl/
  conversion_functions.h).

Machine doubles are modelled as exact rationals (`ℚ`): every claim under
study is about the algebraic formulas computed, with tolerances that dwarf
double rounding.  `uint64_t`/`uint32_t` are modelled as `ℕ` with explicit
`% 2^64` / `% 2^32` where the C++ arithmetic can wrap.  The one
transcendental the code uses (`std::exp`, inside the logistic H curves) is
modelled as an explicit function parameter `e : ℚ → ℚ` standing for the
platform exponential routine; lemmas about `Real.exp` justify the numeric
hypotheses placed on it.
-/

namespace VCCore

/-! ## Machine-integer bounds -/

/-- Largest value of the C++ `uint64_t` (`std::numeric_limits<uint64_t>::max()`). -/
def u64Max : ℕ := 2 ^ 64 - 1

/-- Modulus of `uint64_t` arithmetic. -/
def u64Mod : ℕ := 2 ^ 64

/-- Modulus of `uint32_t` arithmetic. -/
def u32Mod : ℕ := 2 ^ 32

/-! ## The state of `impl::AccuracyType`

`AccuracyType` stores `is_valid_ : bool`, `error_state_ : ErrorState`,
`int_value_ : uint64_t`, `exp_ : uint32_t`, `neg_ : bool` (the
`input_precision_` member only affects double-to-string formatting and is
not modelled).  The represented number is `± int_value_ / 10^exp_`. -/

/-- The `AccuracyType::ErrorState` enum: `kNone`, `kNAN`, `kINFINITY`. -/
inductive ErrState where
  | noError
  | nan
  | inf
deriving DecidableEq, Repr

/-- State of an `impl::AccuracyType` value: `is_valid_`, `error_state_`,
`int_value_` (a `uint64_t`, kept `< 2^64` by the operations), `exp_`
(a `uint32_t`) and the sign `neg_`. -/
structure Acc where
  valid : Bool
  err : ErrState
  intv : ℕ
  exp : ℕ
  neg : Bool
deriving DecidableEq, Repr

/-- The member function `AccuracyType::Invalidate` (accuracy_type.cpp:199):
zeroes the number, clears the sign and records the error state. -/
def invalidate (e : ErrState) : Acc := ⟨false, e, 0, 0, false⟩

/-! ## String parsing (`AccuracyType::FromString`, accuracy_type.cpp:208) -/

/-- Numeric value of a string of decimal digit characters (the semantics of
`std::stoull` / `std::stoul` on an all-digit string, before any overflow
check). -/
def digitsVal (l : List Char) : ℕ :=
  l.foldl (fun a c => a * 10 + (c.toNat - 48)) 0

/-- Conversion of an unsigned value to the C++ `int32_t` (two's complement). -/
def toInt32 (n : ℕ) : ℤ :=
  if n % u32Mod < 2 ^ 31 then ((n % u32Mod : ℕ) : ℤ)
  else ((n % u32Mod : ℕ) : ℤ) - (u32Mod : ℤ)

/-- The net effect of `AccuracyType::RetrieveExponent` (accuracy_type.cpp:341)
on a suffix `[eE][+-]?digits` whose digit part has value `n`: `std::stoul`
negates modulo `2^64` when the sign is `-`, and the result is converted to
`int32_t`.  (For a digit value `≥ 2^64` the C++ `std::stoul` throws an
exception that the caller does not catch; such inputs are outside every
claim and are not modelled.) -/
def retrieveExponent (negSign : Bool) (n : ℕ) : ℤ :=
  toInt32 (if negSign then (u64Mod - n % u64Mod) % u64Mod else n)

/-- Detection of the scientific-notation suffix, the regex
`([eE][-+]?[0-9]+)$` of accuracy_type.cpp:216: if the string ends in
`e`/`E`, an optional sign and at least one digit, the suffix is removed and
returned as (sign-is-minus, digit value). -/
def splitSci (s : List Char) : List Char × Option (Bool × ℕ) :=
  let r := s.reverse
  let ds := r.takeWhile Char.isDigit
  let rest := r.dropWhile Char.isDigit
  if ds.isEmpty then (s, Option.none)
  else
    match rest with
    | [] => (s, Option.none)
    | c :: rest2 =>
      if c = 'e' ∨ c = 'E' then (rest2.reverse, some (false, digitsVal ds.reverse))
      else if c = '-' ∨ c = '+' then
        match rest2 with
        | [] => (s, Option.none)
        | c2 :: rest3 =>
          if c2 = 'e' ∨ c2 = 'E' then (rest3.reverse, some (c = '-', digitsVal ds.reverse))
          else (s, Option.none)
      else (s, Option.none)

/-- The trailing-zero-stripping loop of accuracy_type.cpp:257 (operating here
on the reversed character list): erase final zeros one at a time, stopping
as soon as the new final character is the decimal point. -/
def dropTrailingZerosRev : List Char → List Char
  | '0' :: t =>
    match t with
    | '.' :: u => '.' :: u
    | [] => []
    | c :: u => dropTrailingZerosRev (c :: u)
  | s => s

/-- The merge of the scientific-notation exponent into the fraction-derived
exponent, accuracy_type.cpp:289-299.  `e0` is the current `exp_` (a
`uint32_t` value), `sciExp` the `int32_t` scientific exponent.  A
non-positive `sciExp` is added by absolute value (`uint32_t` wrap); a
positive one invalidates to `kINFINITY` when `exp_ <= (uint32_t)sci_exp`
and is subtracted otherwise.  `Option.none` encodes the invalidation. -/
def MergeSciExponent (e0 : ℕ) (sciExp : ℤ) : Option ℕ :=
  if sciExp ≤ 0 then some ((e0 + sciExp.natAbs) % u32Mod)
  else if e0 ≤ sciExp.toNat then Option.none
  else some (e0 - sciExp.toNat)

/-- Final phase of `FromString` (accuracy_type.cpp:284-318): merge the
scientific exponent, return zero for an empty digit string, otherwise run
`std::stoull`, invalidating to `kINFINITY` when the digits exceed the
`uint64_t` range. -/
def finishParse (negv : Bool) (e0 : ℕ) (digits : List Char)
    (sci : Option (Bool × ℕ)) : Acc :=
  let e1 := e0 % u32Mod
  let merged := match sci with
    | Option.none => some e1
    | some p => MergeSciExponent e1 (retrieveExponent p.1 p.2)
  match merged with
  | Option.none => invalidate .inf
  | some e2 =>
    if digits.isEmpty then ⟨true, .noError, 0, e2, negv⟩
    else if digitsVal digits ≤ u64Max then ⟨true, .noError, digitsVal digits, e2, negv⟩
    else invalidate .inf

/-- The body of `AccuracyType::FromString` (accuracy_type.cpp:208-319) over a
character list: strip the scientific suffix, the sign and leading zeros;
without a decimal point require all digits; with one, strip trailing
zeros, special-case the string `"."`, require digits on both sides of the
point and derive `exp_` from the digit count after it; then finish. -/
def fromStringCore (s0 : List Char) : Acc :=
  let ms := splitSci s0
  let s1 := ms.1
  let negv : Bool := match s1 with | '-' :: _ => true | _ => false
  let s2 := match s1 with | '-' :: t => t | '+' :: t => t | t => t
  let s3 := s2.dropWhile (fun c => c = '0')
  if s3.all (fun c => c ≠ '.') then
    if s3.all Char.isDigit then finishParse negv 0 s3 ms.2 else invalidate .nan
  else
    let s4 := (dropTrailingZerosRev s3.reverse).reverse
    let b4 := s4.takeWhile (fun c => c ≠ '.')
    let a4 := s4.drop (b4.length + 1)
    if s4 = ['.'] then ⟨true, .noError, 0, 0, negv⟩
    else if b4.all Char.isDigit ∧ a4.all Char.isDigit then
      finishParse negv a4.length (b4 ++ a4) ms.2
    else invalidate .nan

/-- The constructor `AccuracyType(const std::string&)`: default state
followed by `FromString`. -/
def fromString (s : String) : Acc := fromStringCore s.data

/-- Exact value of `AccuracyType::get_double` (accuracy_type.cpp:36) for a
valid state, as a rational: `± int_value_ / 10^exp_`.  For an invalid
state the C++ returns NaN or infinity; that is encoded as `Option.none`. -/
def toRatQ (a : Acc) : Option ℚ :=
  if a.valid then some ((if a.neg then (-1 : ℚ) else 1) * (a.intv : ℚ) / 10 ^ a.exp)
  else Option.none

example : fromString "123.456" = ⟨true, .noError, 123456, 3, false⟩ := by decide
example : fromString "-123.456" = ⟨true, .noError, 123456, 3, true⟩ := by decide
example : fromString "0.06" = ⟨true, .noError, 6, 2, false⟩ := by decide
example : fromString "." = ⟨true, .noError, 0, 0, false⟩ := by decide
example : fromString "1234.0" = ⟨true, .noError, 1234, 0, false⟩ := by decide
example : fromString "123.456.789" = invalidate .nan := by decide
example : fromString "123.A" = invalidate .nan := by decide
example : fromString "12.23456e2" = ⟨true, .noError, 1223456, 3, false⟩ := by decide
example : fromString "-6.5935466655309209e-06" = ⟨true, .noError, 65935466655309209, 22, true⟩ := by decide
example : fromString "18.446744073709551616" = invalidate .inf := by decide

/-! ## Arithmetic operators of `impl::AccuracyType` -/

/-- Ternary choice `(exp_ > other.exp_) ? *this : other` of
accuracy_type.cpp:88: the operand whose exponent is (strictly) larger, the
right operand on ties. -/
def bigOperand (a b : Acc) : Acc := if b.exp < a.exp then a else b

/-- The other operand of the same ternary choice (accuracy_type.cpp:89). -/
def smallOperand (a b : Acc) : Acc := if b.exp < a.exp then b else a

/-- The truncation loop of `operator*=` (accuracy_type.cpp:92-97): while the
exponent is positive and the product would still overflow `uint64_t`, drop
the lowest decimal digit and decrement the exponent. -/
def truncLoop (ti te oth : ℕ) : ℕ × ℕ :=
  match te with
  | 0 => (ti, 0)
  | t + 1 => if u64Max / oth < ti then truncLoop (ti / 10) t oth else (ti, t + 1)

/-- The overflow test of `operator*=` (accuracy_type.cpp:85-86):
`int_value_ != 0 && other.int_value_ > max / int_value_`. -/
def mulOverflows (a b : Acc) : Prop := a.intv ≠ 0 ∧ u64Max / a.intv < b.intv

instance (a b : Acc) : Decidable (mulOverflows a b) :=
  inferInstanceAs (Decidable (_ ∧ _))

/-- The member `AccuracyType::operator*=` (accuracy_type.cpp:77-121).  An
invalid receiver is returned unchanged; an invalid right operand
invalidates with that operand's error state.  On detected overflow the
larger-exponent operand is truncated until the product fits, the result
being `kINFINITY` when even the fully truncated magnitude overflows.
Otherwise magnitudes multiply (the guard keeps the product below `2^64`),
exponents add as `uint32_t`, and signs combine by xor. -/
def mulAssign (a b : Acc) : Acc :=
  if ¬ a.valid then a
  else if ¬ b.valid then invalidate b.err
  else if mulOverflows a b then
    let big := bigOperand a b
    let small := smallOperand a b
    let t := truncLoop big.intv big.exp small.intv
    if u64Max / small.intv < t.1 then invalidate .inf
    else ⟨big.valid, big.err, t.1 * small.intv, (t.2 + small.exp) % u32Mod,
          xor big.neg small.neg⟩
  else ⟨a.valid, a.err, a.intv * b.intv, (a.exp + b.exp) % u32Mod,
        xor a.neg b.neg⟩

/-- The member `AccuracyType::operator/=` (accuracy_type.cpp:123-149).  The
guards are embedded exactly: any invalid operand returns the receiver
unchanged, a zero divisor magnitude invalidates to `kINFINITY`.  The
remaining path (exponent alignment, `double` division and re-parse through
the platform's formatting, lines 130-147) routes through the platform
double-to-string round trip and is abstracted as the parameter `core`;
none of the claims touch it. -/
def divAssign (core : Acc → Acc → Acc) (a b : Acc) : Acc :=
  if ¬ a.valid ∨ ¬ b.valid then a
  else if b.intv = 0 then invalidate .inf
  else core a b

/-- The value `static_cast<IntType>(std::pow(10, d))` used for exponent
alignment in `operator+=` (accuracy_type.cpp:161,163): exact for every
exponent difference the claims exercise (`std::pow(10, d)` is exact in
double up to `d = 22`, and the cast is in range for `d ≤ 19`; beyond that
the cast is undefined behaviour in C++ and the exact power stands in). -/
def pow10Cast (d : ℕ) : ℕ := 10 ^ d

/-- The member `AccuracyType::operator+=` (accuracy_type.cpp:151-190).  Any
invalid operand returns the receiver unchanged.  Exponents are aligned to
the larger one — with the source's quirk that in the `exp_ < other.exp_`
branch `exp_` is overwritten before the difference is taken, so the
receiver's magnitude is scaled by `10^0 = 1`.  Magnitudes then add or
subtract according to the signs, with `uint64_t` wrap on the addition. -/
def addAssign (a b : Acc) : Acc :=
  if ¬ a.valid ∨ ¬ b.valid then a
  else
    let p : ℕ × ℕ × ℕ :=
      if a.exp < b.exp then (a.intv, b.exp, b.intv)
      else if b.exp < a.exp then (a.intv, a.exp, (pow10Cast (a.exp - b.exp) * b.intv) % u64Mod)
      else (a.intv, a.exp, b.intv)
    let aInt := p.1
    let newExp := p.2.1
    let bInt := p.2.2
    if a.neg = b.neg then ⟨a.valid, a.err, (aInt + bInt) % u64Mod, newExp, a.neg⟩
    else if a.neg then
      if bInt < aInt then ⟨a.valid, a.err, aInt - bInt, newExp, true⟩
      else ⟨a.valid, a.err, bInt - aInt, newExp, false⟩
    else
      if aInt < bInt then ⟨a.valid, a.err, bInt - aInt, newExp, true⟩
      else ⟨a.valid, a.err, aInt - bInt, newExp, false⟩

/-- The member `AccuracyType::operator-=` (accuracy_type.cpp:192-197): copy
the right operand, flip its sign, and add. -/
def subAssign (a b : Acc) : Acc := addAssign a { b with neg := ¬ b.neg }

/-- The member `AccuracyType::operator!=` (accuracy_type.cpp:358-363): false
when either operand is invalid, otherwise true when any of magnitude,
exponent or sign differ. -/
def neqOp (a b : Acc) : Bool :=
  if ¬ a.valid ∨ ¬ b.valid then false
  else decide (a.intv ≠ b.intv ∨ a.exp ≠ b.exp ∨ a.neg ≠ b.neg)

/-- The member `AccuracyType::operator==` (accuracy_type.cpp:350-352): the
source returns `operator!=(other)` directly, without negation. -/
def eqOp (a b : Acc) : Bool := neqOp a b

example : mulAssign (fromString "123.456") (fromString "123.456") =
    ⟨true, .noError, 15241383936, 6, false⟩ := by decide
example : mulAssign (fromString "-123.456") (fromString "-123.456") =
    ⟨true, .noError, 15241383936, 6, false⟩ := by decide
example : mulAssign (fromString "18.446744073709551615") (fromString "2") =
    ⟨true, .noError, 3689348814741910322, 17, false⟩ := by decide
example : mulAssign (fromString "18446744073709551615") (fromString "2") =
    invalidate .inf := by decide

/-! ## Unit conversion (src/include/spauly/vccore/impl/conversion_functions.h)

`VCCORE_USE_ACCURACY_TYPE` is not defined in the build, so `DoubleT` is the
machine double, modelled as `ℚ`. -/

/-- The `ViscosityUnit` enum of data.h:48. -/
inductive ViscosityUnit where
  | kSquareMilPerSecond
  | kcSt
  | kcP
  | kmPas
deriving DecidableEq, Repr

/-- The `DensityUnit` enum of data.h:57. -/
inductive DensityUnit where
  | kGramPerLiter
  | kKilogramsPerCubicMeter
deriving DecidableEq, Repr

/-- The factor table `impl::kDensityToGPL` (conversion_functions.h:45). -/
def kDensityToGPL : DensityUnit → ℚ
  | .kGramPerLiter => 1
  | .kKilogramsPerCubicMeter => 0.001

/-- The function `impl::ConvertViscosityTomm2s` (conversion_functions.h:89-110):
`kcP`/`kmPas` divide by the density converted to g/L unless the density is
zero, in which case the initial value `0.0` is returned; every other unit
(`kcSt` alias mm²/s) returns the value unchanged. -/
def ConvertViscosityTomm2s (value : ℚ) (fromUnit : ViscosityUnit) (density : ℚ)
    (d_unit : DensityUnit) : ℚ :=
  match fromUnit with
  | .kcP | .kmPas => if density ≠ 0 then value / (density * kDensityToGPL d_unit) else 0
  | _ => value

/-! ## The `Calculator` (src/src/calculator.cpp, src/include/spauly/vccore/calculator.h)

The claims exercise `Calculate` on base-unit input (`Units` equal to
`kStandardUnits`), on which the conversion step is skipped; only that path
is embedded. -/

/-- The `Parameters` DTO of data.h:68 (all four values in base units here). -/
structure Parameters where
  flowrate : ℚ
  total_head : ℚ
  viscosity : ℚ
  density : ℚ
deriving DecidableEq, Repr

/-- The `CorrectionFactors` DTO of data.h:107.  In the source `q`, `eta` and
`error_flag` carry member initializers but the array `h` does not, so on
paths that never write `h` its four entries keep their default-initialized
(indeterminate) contents; `Calculate` below therefore takes the initial
contents of `h` as an explicit argument.  The `error_msg` string is never
written by `Calculate` and is not modelled. -/
structure CorrectionFactors where
  q : ℚ
  eta : ℚ
  h : List ℚ
  error_flag : ℕ
deriving DecidableEq, Repr

/-- Modelled from the spec: the `ErrorFlag` enumerators used by
`Calculator::ValidateInput` are declared outside src/.  The spec fixes the
bit assignment (bit0 = flowrate, bit1 = head, bit2 = viscosity). -/
def kFlowrateError : ℕ := 1

/-- Modelled from the spec: bit1 = total head out of range. -/
def kTotalHeadError : ℕ := 2

/-- Modelled from the spec: bit2 = viscosity out of range. -/
def kViscosityError : ℕ := 4

/-- Modelled from the spec: the `kNoError` flag value is declared outside
src/; the spec states that a zero `error_flag` means success, so the
"no error" enumerator is 0. -/
def kNoError : ℕ := 0

/-- The member `Calculator::ValidateInput` (calculator.cpp:102-118): OR in
one error bit for flowrate outside `[6, 2000]`, one for total head outside
`[5, 200]`, one for viscosity outside `[10, 4000]`; density is not read. -/
def ValidateInput (p : Parameters) : ℕ :=
  (((0 : ℕ) ||| (if p.flowrate < 6 ∨ 2000 < p.flowrate then kFlowrateError else 0)) |||
    (if p.total_head < 5 ∨ 200 < p.total_head then kTotalHeadError else 0)) |||
    (if p.viscosity < 10 ∨ 4000 < p.viscosity then kViscosityError else 0)

/-- Loop body of `Calculator::FitToScale` (calculator.cpp:128-147), walking
the breakpoint/distance pairs in ascending key order (the iteration order
of the `std::map`) with the accumulated position and the previous
breakpoint value (initially `0`) as state.  The not-found fallthrough
returns `-1.0`. -/
def fitGo (scale : List (ℤ × ℤ)) (input : ℚ) (pos prev : ℚ) : ℚ :=
  match scale with
  | [] => -1
  | (k, d) :: rest =>
    if (k : ℚ) = input then pos + (d : ℚ)
    else if input < (k : ℚ) then pos + (input - prev) / ((k : ℚ) - prev) * (d : ℚ)
    else fitGo rest input (pos + (d : ℚ)) (k : ℚ)

/-- The member `Calculator::FitToScale` (calculator.cpp:120-153). -/
def FitToScale (scale : List (ℤ × ℤ)) (input : ℚ) (startPos : ℤ) : ℚ :=
  fitGo scale input (startPos : ℚ) 0

/-- The scale `Calculator::kFlowrateScale` (calculator.h:109-114). -/
def kFlowrateScale : List (ℤ × ℤ) :=
  [(6, 0), (7, 14), (8, 9), (9, 9), (10, 9), (15, 30),
   (20, 21), (30, 30), (40, 21), (50, 17), (60, 13), (70, 12),
   (80, 9), (90, 9), (100, 9), (150, 30), (200, 21), (300, 30),
   (400, 21), (500, 17), (600, 14), (700, 11), (800, 10), (900, 8),
   (1000, 8), (1500, 30), (2000, 22)]

/-- The scale `Calculator::kTotalHeadScale` (calculator.h:116-117). -/
def kTotalHeadScale : List (ℤ × ℤ) :=
  [(5, 0), (10, 15), (20, 12), (40, 14), (50, 8), (100, 9), (200, 13)]

/-- The scale `Calculator::kViscoScale` (calculator.h:119-122). -/
def kViscoScale : List (ℤ × ℤ) :=
  [(10, 0), (20, 27), (30, 16), (40, 10), (60, 15), (80, 11),
   (100, 8), (200, 26), (300, 16), (400, 11), (500, 8), (600, 6),
   (800, 12), (1000, 9), (2000, 26), (3000, 14), (4000, 10)]

/-- The constant `Calculator::kPitchTotalH` (calculator.h:106). -/
def kPitchTotalH : ℚ := 0.5255813953488372

/-- The constant `Calculator::kPitchVisco` (calculator.h:107). -/
def kPitchVisco : ℚ := -1.9090909090909092

/-- The constructor `impl::LinearFunc(m, x, y)` (math.h:74): slope `m` and
intercept `b = y - m*x`, represented as the pair `(m, b)`. -/
def linearFromPoint (m x y : ℚ) : ℚ × ℚ := (m, y - m * x)

/-- The call operator of `impl::LinearFunc` (math.h:82): `m*x + b`. -/
def linearEval (f : ℚ × ℚ) (t : ℚ) : ℚ := f.1 * t + f.2

/-- The member `impl::LinearFunc::SolveForX` (math.h:88): `0` for a zero
slope, otherwise `(y - b) / m`. -/
def linearSolveForX (f : ℚ × ℚ) (y : ℚ) : ℚ :=
  if f.1 = 0 then 0 else (y - f.2) / f.1

/-- The call operator of `impl::PolynomialFunc` (math.h:114-126): sum of
`coeffs[i] * x^(S-1-i)`, the first coefficient belonging to the highest
power. -/
def polyEval (cs : List ℚ) (x : ℚ) : ℚ :=
  (cs.foldl (fun (a : ℚ × ℕ) c => (a.1 + c * x ^ a.2, a.2 - 1)) (0, cs.length - 1)).1

/-- The coefficients `Calculator::kQ` (calculator.h:90-92). -/
def kQ : List ℚ :=
  [4.3286373442021278e-09, -6.5935466655309209e-06, 0.0039704102541411324,
   -1.1870337647376101, 176.52190832690891, -10276.558815133236]

/-- The coefficients `Calculator::kEta` (calculator.h:93-95). -/
def kEta : List ℚ :=
  [2.5116987378131985e-10, -3.2416532447274418e-07, 0.00015531747394399714,
   -0.037300324399145976, 4.2391803778160968, -6.2364025573465849]

/-- The coefficient table `Calculator::kH` (calculator.h:96-101): four rows
of three coefficients, one row per proportional head 0.6/0.8/1.0/1.2. -/
def kH : List (List ℚ) :=
  [[285.39113639063004, -0.019515612319848788, 451.79876054847699],
   [286.44331640461877, -0.016739174282778945, 453.11949555301783],
   [285.70823636118865, -0.016126836943018912, 443.60573501332937],
   [285.91175890816675, -0.015057232233799856, 436.03377039579027]]

/-- Row access into `kH` (the `kFuncH.at(i)` of calculator.cpp:73). -/
def kHrow (i : ℕ) : List ℚ := (kH.get? i).getD []

/-- The call operator of `impl::LogisticalFunc` (math.h:147-151):
`l / (1 + exp(-k * (x - x0)))` with coefficients `[l, k, x0]`.  The
platform exponential `std::exp` is the parameter `e`. -/
def logisticEval (e : ℚ → ℚ) (c : List ℚ) (x : ℚ) : ℚ :=
  c.headD 0 / (1 + e (-(c.getD 1 0) * (x - c.getD 2 0)))

/-- Modelled from the spec: `kPixelsCorrectionScale` is declared outside
src/.  The spec gives the formula `value / pixel_scale / 10 ± offset` but
not the number; 22 is the unique integer pixel distance under which the
spec's end-to-end scenario (q ≈ 0.98, eta ≈ 0.75, h[0] ≈ 0.97 at input
100/100/100) holds with the src constants. -/
def kPixelsCorrectionScale : ℚ := 22

/-- Modelled from the spec: `ValidateXQ` (the fitted-domain predicate of the
Q polynomial) is declared outside src/; the spec fixes its lower edge at
the cutoff 242 and does not state the upper edge, which no claim reaches. -/
def ValidateXQ (x : ℚ) : Bool := 242 ≤ x

/-- Modelled from the spec: `ValidateXEta`, lower edge at the cutoff 122. -/
def ValidateXEta (x : ℚ) : Bool := 122 ≤ x

/-- Modelled from the spec: `ValidateXH`, lower edge at the shared cutoff
146. -/
def ValidateXH (x : ℚ) : Bool := 146 ≤ x

/-- The H-branch of `Calculate` (calculator.cpp:70-79): inside the fitted
domain evaluate each of the four curves as `kFuncH.at(i)(pos) / scale / 10
- 0.3`; outside it all four entries become `1.0` below the cutoff 146 and
`0.0` above.  The function objects `kFuncH` are declared outside src/; the
3-coefficient rows of `kH` match `impl::LogisticalFunc` (whose own unit
test evaluates row 0 of this very table), which forces the logistic shape
even though the spec calls the H curves degree-5 polynomials. -/
def computeH (e : ℚ → ℚ) (pos : ℚ) : List ℚ :=
  if ValidateXH pos then
    (List.range 4).map (fun i => logisticEval e (kHrow i) pos / kPixelsCorrectionScale / 10 - 0.3)
  else
    (List.range 4).map (fun _ => if pos < 146 then (1 : ℚ) else 0)

/-- Stages 2-5 of `Calculator::Calculate` (calculator.cpp:36-81): scale
fitting, the two linear functions, the intersection solve, and the three
validity-gated curve evaluations.  `flag` is the error flag already stored
in `out` when these stages run. -/
def CalcStages (e : ℚ → ℚ) (flag : ℕ) (p : Parameters) : CorrectionFactors :=
  let flow_pos := FitToScale kFlowrateScale p.flowrate 0
  let head_pos := FitToScale kTotalHeadScale p.total_head 1
  let visc_pos := FitToScale kViscoScale p.viscosity 105
  let head_func := linearFromPoint kPitchTotalH 4 head_pos
  let visc_func := linearFromPoint kPitchVisco visc_pos 304
  let pos_main := linearSolveForX visc_func (linearEval head_func flow_pos)
  let q := if ValidateXQ pos_main then polyEval kQ pos_main / kPixelsCorrectionScale / 10 + 0.2
           else if pos_main < 242 then 1 else 0
  let eta := if ValidateXEta pos_main then polyEval kEta pos_main / kPixelsCorrectionScale / 10 + 0.2
             else if pos_main < 122 then 1 else 0
  ⟨q, eta, computeH e pos_main, flag⟩

/-- The member `Calculator::Calculate` (calculator.cpp:23-82) on base-unit
input (the `Units` argument equal to `kStandardUnits`, so `GetConverted`
is skipped).  `hInit` is the default-initialized (indeterminate) content
of `out.h`; `e` the platform exponential.  The early return is embedded
exactly as written: `if (!(out.error_flag & kNoError)) return out;`. -/
def Calculate (e : ℚ → ℚ) (hInit : List ℚ) (p : Parameters) : CorrectionFactors :=
  let flag := ValidateInput p
  if flag &&& kNoError = 0 then ⟨0, 0, hInit, flag⟩
  else CalcStages e flag p

/-- Modelled from the spec: `Calculate` with the early-return guard the spec
states ("If `error_flag != 0`, return zero-valued `CorrectionFactors`
carrying the flag; no further stages run") in place of the source's
`!(out.error_flag & kNoError)` test, which cannot realize that behaviour
for any value of the missing `kNoError` constant.  Used to check the
intended pipeline output against the end-to-end claim. -/
def CalculateSpec (e : ℚ → ℚ) (hInit : List ℚ) (p : Parameters) : CorrectionFactors :=
  let flag := ValidateInput p
  if flag ≠ 0 then ⟨0, 0, hInit, flag⟩
  else CalcStages e flag p

/-- The argument at which the H-curve 0 logistic of `Calculate` evaluates
the platform exponential for the base-unit input 100/100/100: the
`-k * (pos_main - x0)` of `impl::LogisticalFunc` with the `kH` row-0
coefficients and the pipeline's intersection position. -/
def hExpArg100 : ℚ :=
  -(kHrow 0).getD 1 0 *
    (linearSolveForX (linearFromPoint kPitchVisco (FitToScale kViscoScale 100 105) 304)
        (linearEval (linearFromPoint kPitchTotalH 4 (FitToScale kTotalHeadScale 100 1))
          (FitToScale kFlowrateScale 100 0)) -
      (kHrow 0).getD 2 0)

theorem hExpArg100_eq :
    hExpArg100 =
      -(439467661093051915372916630991951207503139754919 /
        119318181818181825000000000000000000000000000000 : ℚ) := by
  norm_num [hExpArg100, kHrow, kH, FitToScale, fitGo, kFlowrateScale, kTotalHeadScale,
    kViscoScale, kPitchTotalH, kPitchVisco, linearFromPoint, linearEval, linearSolveForX]

/-- The true exponential at `hExpArg100` lies in `[0.0183, 0.0277]`, an
interval that also contains the stand-in value `1/40` used in the C1
theorem — so any faithful `std::exp` implementation yields an H factor
inside the window that theorem checks. -/
theorem real_exp_arg_in_bounds :
    ((0.0183 : ℝ) ≤ Real.exp ((hExpArg100 : ℚ) : ℝ) ∧
     Real.exp ((hExpArg100 : ℚ) : ℝ) ≤ 0.0277) ∧
    ((0.0183 : ℚ) ≤ 1/40 ∧ (1/40 : ℚ) ≤ 0.0277) := by
  refine ⟨?_, by norm_num, by norm_num⟩
  have hA : ((hExpArg100 : ℚ) : ℝ) =
      -((439467661093051915372916630991951207503139754919 /
        119318181818181825000000000000000000000000000000 : ℚ) : ℝ) := by
    rw [hExpArg100_eq]; push_cast; ring
  set aR : ℝ := ((439467661093051915372916630991951207503139754919 /
      119318181818181825000000000000000000000000000000 : ℚ) : ℝ) with haR
  have ha1 : (3683/1000 : ℝ) ≤ aR := by
    have h0 : (3683/1000 : ℚ) ≤ 439467661093051915372916630991951207503139754919 /
        119318181818181825000000000000000000000000000000 := by norm_num
    calc (3683/1000 : ℝ) = ((3683/1000 : ℚ) : ℝ) := by norm_num
      _ ≤ aR := by rw [haR]; exact_mod_cast h0
  have ha2 : aR ≤ 4 := by
    have h0 : (439467661093051915372916630991951207503139754919 /
        119318181818181825000000000000000000000000000000 : ℚ) ≤ 4 := by norm_num
    calc aR ≤ ((4 : ℚ) : ℝ) := by rw [haR]; exact_mod_cast h0
      _ = 4 := by norm_num
  have hpos : (0 : ℝ) < Real.exp aR := Real.exp_pos aR
  have hup : Real.exp aR ≤ 10000/183 := by
    have h4 : Real.exp aR ≤ Real.exp 4 := Real.exp_le_exp.mpr ha2
    have he4 : Real.exp 4 = Real.exp 1 ^ 4 := by
      rw [← Real.exp_nat_mul]
      norm_num
    have hb : Real.exp 1 ^ 4 ≤ (2.7182818286 : ℝ) ^ 4 :=
      pow_le_pow_left₀ (Real.exp_pos 1).le Real.exp_one_lt_d9.le 4
    exact le_trans h4 (he4 ▸ le_trans hb (by norm_num))
  have hlow : (10000/277 : ℝ) ≤ Real.exp aR := by
    have hsplit : Real.exp aR = Real.exp 1 ^ 3 * Real.exp ((aR - 3)/2) ^ 2 := by
      rw [← Real.exp_nat_mul, ← Real.exp_nat_mul, ← Real.exp_add]
      ring_nf
    have hhalf : (1.3415 : ℝ) ≤ Real.exp ((aR - 3)/2) := by
      have := Real.add_one_le_exp ((aR - 3)/2)
      nlinarith [ha1]
    have hcube : (2.7182818283 : ℝ) ^ 3 ≤ Real.exp 1 ^ 3 :=
      pow_le_pow_left₀ (by norm_num) Real.exp_one_gt_d9.le 3
    have hsq : (1.3415 : ℝ) ^ 2 ≤ Real.exp ((aR - 3)/2) ^ 2 :=
      pow_le_pow_left₀ (by norm_num) hhalf 2
    calc (10000/277 : ℝ) ≤ (2.7182818283 : ℝ) ^ 3 * (1.3415 : ℝ) ^ 2 := by norm_num
      _ ≤ Real.exp 1 ^ 3 * Real.exp ((aR - 3)/2) ^ 2 := by
          apply mul_le_mul hcube hsq (by norm_num) (by positivity)
      _ = Real.exp aR := hsplit.symm
  rw [hA, Real.exp_neg, inv_eq_one_div]
  constructor
  · rw [le_div_iff₀ hpos]
    nlinarith [hup]
  · rw [div_le_iff₀ hpos]
    nlinarith [hlow]

/-- On the 100/100/100 input the first H entry produced by the pipeline
consults the exponential routine only at `hExpArg100`. -/
theorem calculateSpec_h0_exp_argument (e : ℚ → ℚ) (hInit : List ℚ) :
    (CalculateSpec e hInit ⟨100, 100, 100, 0⟩).h.getD 0 0 =
      (kHrow 0).headD 0 / (1 + e hExpArg100) / kPixelsCorrectionScale / 10 - 0.3 := by
  norm_num [CalculateSpec, CalcStages, ValidateInput, FitToScale, fitGo,
    kFlowrateScale, kTotalHeadScale, kViscoScale, kPitchTotalH, kPitchVisco,
    linearFromPoint, linearEval, linearSolveForX, ValidateXH, computeH, kHrow, kH,
    logisticEval, kFlowrateError, kTotalHeadError, kViscosityError,
    List.range, List.range.loop, hExpArg100]

/-! ## Claim theorems -/

/-- C1: for the base-unit input flowrate = 100, total head = 100, viscosity
= 100 the claim (like the repository's own `CalculateTest`) expects
`error_flag = 0` with `q` within 0.01 of 0.98, `eta` within 0.01 of 0.75
and `h[0]` within 0.01 of 0.97.  The code as written violates this: its
early-return test `!(out.error_flag & kNoError)` is satisfied by
`error_flag == 0` whatever the value of the missing `kNoError` constant,
so on this valid input `Calculate` returns the zeroed early-return record
with `q = 0` (first conjunct).  With the guard the spec states instead,
the pipeline produces exactly the claimed values (second conjunct; the
platform exponential is taken at 1/40, which `real_exp_arg_in_bounds`
above places within the admissible interval of the true exponential, and
`calculateSpec_h0_exp_argument` shows the pipeline consults it only at
`hExpArg100`). -/
theorem c1_end_to_end_code_bug :
    Calculate (fun _ => 1/40) [0, 0, 0, 0] ⟨100, 100, 100, 0⟩ =
      ⟨0, 0, [0, 0, 0, 0], 0⟩ ∧
    ((CalculateSpec (fun _ => 1/40) [0, 0, 0, 0] ⟨100, 100, 100, 0⟩).error_flag = 0 ∧
     |(CalculateSpec (fun _ => 1/40) [0, 0, 0, 0] ⟨100, 100, 100, 0⟩).q - 0.98| ≤ 0.01 ∧
     |(CalculateSpec (fun _ => 1/40) [0, 0, 0, 0] ⟨100, 100, 100, 0⟩).eta - 0.75| ≤ 0.01 ∧
     |(CalculateSpec (fun _ => 1/40) [0, 0, 0, 0] ⟨100, 100, 100, 0⟩).h.getD 0 0 - 0.97| ≤ 0.01) := by
  norm_num [Calculate, CalculateSpec, CalcStages, ValidateInput, FitToScale, fitGo,
    kFlowrateScale, kTotalHeadScale, kViscoScale, kPitchTotalH, kPitchVisco,
    linearFromPoint, linearEval, linearSolveForX, ValidateXQ, ValidateXEta,
    ValidateXH, polyEval, kQ, kEta, computeH, kHrow, kH, logisticEval,
    kPixelsCorrectionScale, kNoError, kFlowrateError, kTotalHeadError, kViscosityError,
    List.range, List.range.loop, abs_sub_le_iff, abs_le]

/-- C2 counterexample: on the invalid input flowrate = 0 (mask 1) `Calculate`
returns early, carrying the mask with `q = eta = 0` — but the four `h`
entries are returned exactly as default-initialized (indeterminate in
C++; here seeded with 5), not zeroed: `CorrectionFactors.h` has no member
initializer in data.h, and the early return never writes it. -/
theorem c2_h_entries_not_zeroed :
    Calculate (fun _ => 0) [5, 5, 5, 5] ⟨0, 50, 100, 0⟩ =
      ⟨0, 0, [5, 5, 5, 5], 1⟩ ∧ ((5 : ℚ) = 0 → False) := by
  constructor
  · norm_num [Calculate, ValidateInput, kNoError, kFlowrateError,
      kTotalHeadError, kViscosityError]
  · norm_num

/-- C2 (amended): `ValidateInput` returns a bitmask with bit0 iff flowrate
is outside `[6, 2000]`, bit1 iff total head is outside `[5, 200]`, bit2
iff viscosity is outside `[10, 4000]`; density never affects the mask; and
whenever the mask is non-zero `Calculate` performs the early return,
carrying the mask with `q = eta = 0` and the `h` array left at its
default-initialized contents (not guaranteed zero), no further stage
running. -/
theorem c2_validate_bitmask (p : Parameters) :
    ((ValidateInput p).testBit 0 = true ↔ (p.flowrate < 6 ∨ 2000 < p.flowrate)) ∧
    ((ValidateInput p).testBit 1 = true ↔ (p.total_head < 5 ∨ 200 < p.total_head)) ∧
    ((ValidateInput p).testBit 2 = true ↔ (p.viscosity < 10 ∨ 4000 < p.viscosity)) ∧
    (∀ d : ℚ, ValidateInput ⟨p.flowrate, p.total_head, p.viscosity, d⟩ = ValidateInput p) ∧
    (∀ (e : ℚ → ℚ) (hInit : List ℚ), ValidateInput p ≠ 0 →
       Calculate e hInit p = ⟨0, 0, hInit, ValidateInput p⟩) := by
  by_cases h1 : p.flowrate < 6 ∨ 2000 < p.flowrate <;>
    by_cases h2 : p.total_head < 5 ∨ 200 < p.total_head <;>
      by_cases h3 : p.viscosity < 10 ∨ 4000 < p.viscosity <;>
        simp [ValidateInput, Calculate, kNoError, kFlowrateError, kTotalHeadError,
          kViscosityError, h1, h2, h3] <;>
        decide

/-- C2 witness: a concrete run of `c2_validate_bitmask`, at flowrate 5
(below range): bit0 is set and the early return carries the seeded `h`. -/
theorem c2_validate_bitmask_witness :
    (ValidateInput ⟨5, 50, 100, 3⟩).testBit 0 = true ∧
    Calculate (fun _ => 0) [9] ⟨5, 50, 100, 3⟩ = ⟨0, 0, [9], ValidateInput ⟨5, 50, 100, 3⟩⟩ := by
  have H := c2_validate_bitmask ⟨5, 50, 100, 3⟩
  refine ⟨H.1.mpr (by norm_num), H.2.2.2.2 (fun _ => 0) [9] ?_⟩
  norm_num [ValidateInput, kFlowrateError, kTotalHeadError, kViscosityError]

/-- C4: the claim states that `operator==` on two valid values is
component-wise equality of `(magnitude, exponent, sign)`.  The source
(accuracy_type.cpp:350-352) returns `operator!=(other)` without negating
it, so equality is inverted: `ExactDecimal("1.1")` does not compare equal
to itself, and compares equal to `ExactDecimal("1.2")`. -/
theorem c4_eq_operator_inverted :
    fromString "1.1" = ⟨true, .noError, 11, 1, false⟩ ∧
    eqOp (fromString "1.1") (fromString "1.1") = false ∧
    eqOp (fromString "1.1") (fromString "1.2") = true := by decide

/-- C9: viscosity conversion to mm²/s: centistokes (and the mm²/s alias)
pass the value through for every density; centipoise and mPa·s divide by
the density converted to g/L when the density is non-zero and return the
plain value zero (no `Infinite` error state exists on the double path)
when it is zero; in particular 2 cP at density 4 g/L is 0.5 mm²/s. -/
theorem c9_viscosity_conversion :
    (∀ (v d : ℚ) (du : DensityUnit),
       ConvertViscosityTomm2s v .kcSt d du = v ∧
       ConvertViscosityTomm2s v .kSquareMilPerSecond d du = v) ∧
    (∀ (v d : ℚ) (du : DensityUnit), d ≠ 0 →
       ConvertViscosityTomm2s v .kcP d du = v / (d * kDensityToGPL du) ∧
       ConvertViscosityTomm2s v .kmPas d du = v / (d * kDensityToGPL du)) ∧
    (∀ (v : ℚ) (du : DensityUnit),
       ConvertViscosityTomm2s v .kcP 0 du = 0 ∧
       ConvertViscosityTomm2s v .kmPas 0 du = 0) ∧
    ConvertViscosityTomm2s 2 .kcP 4 .kGramPerLiter = 0.5 := by
  refine ⟨fun v d du => ⟨rfl, rfl⟩, fun v d du hd => ?_, fun v du => ?_, ?_⟩
  · simp [ConvertViscosityTomm2s, hd]
  · simp [ConvertViscosityTomm2s]
  · norm_num [ConvertViscosityTomm2s, kDensityToGPL]

/-- C9 witness: the universally quantified parts of
`c9_viscosity_conversion` at concrete inputs. -/
theorem c9_viscosity_conversion_witness :
    ConvertViscosityTomm2s 7 .kcSt 3 .kGramPerLiter = 7 ∧
    ConvertViscosityTomm2s 9 .kcP 2 .kKilogramsPerCubicMeter = 9 / (2 * kDensityToGPL .kKilogramsPerCubicMeter) := by
  have H := c9_viscosity_conversion
  exact ⟨(H.1 7 3 .kGramPerLiter).1, (H.2.1 9 2 .kKilogramsPerCubicMeter (by norm_num)).1⟩

/-- C10: an input strictly below the first breakpoint of a scale never
reaches the `-1.0` fallthrough of `FitToScale`: the very first iteration
interpolates against the initial `prev_value = 0`, giving
`start + (input / first_breakpoint) * first_distance` — and since all
three built-in scales map their first breakpoint to distance 0, every
below-range input (negative ones included) lands exactly on the start
position. -/
theorem c10_below_first_breakpoint :
    (∀ (k0 d0 : ℤ) (rest : List (ℤ × ℤ)) (input : ℚ) (start : ℤ),
       0 < k0 → input < (k0 : ℚ) →
       FitToScale ((k0, d0) :: rest) input start = start + input / (k0 : ℚ) * (d0 : ℚ)) ∧
    (∀ (input : ℚ) (start : ℤ), input < 6 → FitToScale kFlowrateScale input start = start) ∧
    (∀ (input : ℚ) (start : ℤ), input < 5 → FitToScale kTotalHeadScale input start = start) ∧
    (∀ (input : ℚ) (start : ℤ), input < 10 → FitToScale kViscoScale input start = start) := by
  have main : ∀ (k0 d0 : ℤ) (rest : List (ℤ × ℤ)) (input : ℚ) (start : ℤ),
      0 < k0 → input < (k0 : ℚ) →
      FitToScale ((k0, d0) :: rest) input start = start + input / (k0 : ℚ) * (d0 : ℚ) := by
    intro k0 d0 rest input start hk hlt
    have hne : ((k0 : ℚ)) ≠ input := ne_of_gt hlt
    simp only [FitToScale, fitGo]
    rw [if_neg hne, if_pos hlt]
    norm_num
  refine ⟨main, fun input start h => ?_, fun input start h => ?_, fun input start h => ?_⟩
  · have := main 6 0 (kFlowrateScale.drop 1) input start (by norm_num)
      (by exact_mod_cast h)
    simpa using this
  · have := main 5 0 (kTotalHeadScale.drop 1) input start (by norm_num)
      (by exact_mod_cast h)
    simpa using this
  · have := main 10 0 (kViscoScale.drop 1) input start (by norm_num)
      (by exact_mod_cast h)
    simpa using this

/-- C10 witness: a concrete below-range input, on a synthetic scale and on
the flowrate scale. -/
theorem c10_below_first_breakpoint_witness :
    FitToScale [(4, 8)] 1 3 = 3 + 1 / (4 : ℚ) * 8 ∧
    FitToScale kFlowrateScale (-2) 7 = 7 := by
  exact ⟨c10_below_first_breakpoint.1 4 8 [] 1 3 (by norm_num) (by norm_num),
         c10_below_first_breakpoint.2.1 (-2) 7 (by norm_num)⟩

/-- Sum, as a rational, of the pixel distances of a list of scale entries. -/
def distSum (l : List (ℤ × ℤ)) : ℚ := (l.map (fun p => ((p.2 : ℤ) : ℚ))).sum

/-- Sum of the pixel distances of the scale entries whose breakpoint lies
strictly below the input. -/
def distSumBelow (scale : List (ℤ × ℤ)) (input : ℚ) : ℚ :=
  distSum (scale.filter (fun p => decide ((p.1 : ℚ) < input)))

theorem distSum_nil : distSum [] = 0 := rfl

theorem distSum_cons (p : ℤ × ℤ) (l : List (ℤ × ℤ)) :
    distSum (p :: l) = (p.2 : ℚ) + distSum l := by
  simp [distSum]

theorem fitGo_all_lt {input : ℚ} :
    ∀ (l : List (ℤ × ℤ)) (pos prev : ℚ), (∀ p ∈ l, (p.1 : ℚ) < input) →
      fitGo l input pos prev = -1 := by
  intro l
  induction l with
  | nil => intro pos prev _; rfl
  | cons hd tl ih =>
    intro pos prev hall
    obtain ⟨k, d⟩ := hd
    have hk : (k : ℚ) < input := hall (k, d) (by simp)
    simp only [fitGo]
    rw [if_neg (ne_of_lt hk), if_neg (not_lt.mpr hk.le)]
    exact ih _ _ (fun p hp => hall p (List.mem_cons_of_mem _ hp))

theorem fitGo_skip {input : ℚ} :
    ∀ (l1 : List (ℤ × ℤ)) (k1 d1 : ℤ) (rest : List (ℤ × ℤ)) (pos prev : ℚ),
      (∀ p ∈ l1 ++ [(k1, d1)], (p.1 : ℚ) < input) →
      fitGo ((l1 ++ [(k1, d1)]) ++ rest) input pos prev =
        fitGo rest input (pos + distSum l1 + (d1 : ℚ)) (k1 : ℚ) := by
  intro l1
  induction l1 with
  | nil =>
    intro k1 d1 rest pos prev hall
    have hk : (k1 : ℚ) < input := hall (k1, d1) (by simp)
    show fitGo ((k1, d1) :: rest) input pos prev = _
    simp only [fitGo]
    rw [if_neg (ne_of_lt hk), if_neg (not_lt.mpr hk.le), distSum_nil, add_zero]
  | cons hd tl ih =>
    intro k1 d1 rest pos prev hall
    obtain ⟨k, d⟩ := hd
    have hk : (k : ℚ) < input := hall (k, d) (by simp)
    show fitGo ((k, d) :: ((tl ++ [(k1, d1)]) ++ rest)) input pos prev = _
    simp only [fitGo]
    rw [if_neg (ne_of_lt hk), if_neg (not_lt.mpr hk.le)]
    rw [ih k1 d1 rest (pos + (d : ℚ)) (k : ℚ)
      (fun p hp => hall p (List.mem_cons_of_mem _ hp))]
    rw [distSum_cons]
    ring_nf

theorem fitGo_skip_all {input : ℚ} :
    ∀ (l1 rest : List (ℤ × ℤ)) (pos prev : ℚ), (∀ p ∈ l1, (p.1 : ℚ) < input) →
      ∃ prev2, fitGo (l1 ++ rest) input pos prev =
        fitGo rest input (pos + distSum l1) prev2 := by
  intro l1
  induction l1 with
  | nil =>
    intro rest pos prev _
    exact ⟨prev, by rw [List.nil_append, distSum_nil, add_zero]⟩
  | cons hd tl ih =>
    intro rest pos prev hall
    obtain ⟨k, d⟩ := hd
    have hk : (k : ℚ) < input := hall (k, d) (by simp)
    obtain ⟨prev2, hp2⟩ := ih rest (pos + (d : ℚ)) (k : ℚ)
      (fun p hp => hall p (List.mem_cons_of_mem _ hp))
    refine ⟨prev2, ?_⟩
    show fitGo ((k, d) :: (tl ++ rest)) input pos prev = _
    simp only [fitGo]
    rw [if_neg (ne_of_lt hk), if_neg (not_lt.mpr hk.le), hp2, distSum_cons]
    ring_nf

/-- C3: over any scale with strictly ascending breakpoints, any input and
any start position, `FitToScale` returns the start plus the distances of
all breakpoints strictly below the input, plus the matched breakpoint's
full distance on an exact hit, or plus the linear interpolation
`(input - prev) / (k - prev) * dist` when the input falls strictly
between the adjacent breakpoints `prev` and `k`; and it returns the
`-1.0` sentinel whenever the input exceeds every breakpoint. -/
theorem c3_fit_to_scale (scale : List (ℤ × ℤ)) (input : ℚ) (start : ℤ)
    (hsorted : List.Pairwise (fun a b : ℤ × ℤ => a.1 < b.1) scale) :
    (∀ k d : ℤ, (k, d) ∈ scale → (k : ℚ) = input →
       FitToScale scale input start = (start : ℚ) + distSumBelow scale input + (d : ℚ)) ∧
    (∀ (pre post : List (ℤ × ℤ)) (k1 d1 k2 d2 : ℤ),
       scale = pre ++ (k1, d1) :: (k2, d2) :: post →
       (k1 : ℚ) < input → input < (k2 : ℚ) →
       FitToScale scale input start = (start : ℚ) + distSumBelow scale input +
         (input - (k1 : ℚ)) / ((k2 : ℚ) - (k1 : ℚ)) * (d2 : ℚ)) ∧
    ((∀ k d : ℤ, (k, d) ∈ scale → (k : ℚ) < input) →
       FitToScale scale input start = -1) := by
  refine ⟨?_, ?_, ?_⟩
  · -- exact breakpoint hit
    intro k d hmem heq
    obtain ⟨l1, l2, rfl⟩ := List.append_of_mem hmem
    obtain ⟨hp1, hp2, hcross⟩ := List.pairwise_append.mp hsorted
    have hall : ∀ p ∈ l1, (p.1 : ℚ) < input := by
      intro p hp
      have : p.1 < k := hcross p hp (k, d) (by simp)
      calc (p.1 : ℚ) < (k : ℚ) := by exact_mod_cast this
        _ = input := heq
    obtain ⟨prev2, hskip⟩ := fitGo_skip_all l1 ((k, d) :: l2) (start : ℚ) 0 hall
    have hbelow : distSumBelow (l1 ++ (k, d) :: l2) input = distSum l1 := by
      have h1 : l1.filter (fun p => decide ((p.1 : ℚ) < input)) = l1 :=
        List.filter_eq_self.mpr (fun p hp => decide_eq_true (hall p hp))
      have h2 : ((k, d) :: l2).filter (fun p => decide ((p.1 : ℚ) < input)) = [] := by
        apply List.filter_eq_nil_iff.mpr
        intro p hp
        rcases List.mem_cons.mp hp with h | h
        · subst h; simp [heq]
        · have hk2 : k < p.1 := (List.pairwise_cons.mp hp2).1 p h
          have : input < (p.1 : ℚ) := by
            calc input = (k : ℚ) := heq.symm
              _ < (p.1 : ℚ) := by exact_mod_cast hk2
          simp [not_lt.mpr this.le]
      simp [distSumBelow, List.filter_append, h1, h2, distSum]
    rw [hbelow]
    simp only [FitToScale]
    rw [hskip]
    simp only [fitGo]
    rw [if_pos heq]
  · -- strict bracket: linear interpolation
    intro pre post k1 d1 k2 d2 hsplit h1 h2
    subst hsplit
    obtain ⟨hpPre, hpRest, hcross⟩ := List.pairwise_append.mp hsorted
    have hallPre : ∀ p ∈ pre ++ [(k1, d1)], (p.1 : ℚ) < input := by
      intro p hp
      rcases List.mem_append.mp hp with h | h
      · have : p.1 < k1 := hcross p h (k1, d1) (by simp)
        calc (p.1 : ℚ) < (k1 : ℚ) := by exact_mod_cast this
          _ < input := h1
      · rcases List.mem_singleton.mp h with rfl
        exact h1
    have hassoc : pre ++ (k1, d1) :: (k2, d2) :: post =
        (pre ++ [(k1, d1)]) ++ ((k2, d2) :: post) := by simp
    have hbelow : distSumBelow (pre ++ (k1, d1) :: (k2, d2) :: post) input
        = distSum pre + (d1 : ℚ) := by
      have hf1 : pre.filter (fun p => decide ((p.1 : ℚ) < input)) = pre :=
        List.filter_eq_self.mpr (fun p hp => decide_eq_true
          (hallPre p (List.mem_append_left _ hp)))
      have hf2 : ((k2, d2) :: post).filter (fun p => decide ((p.1 : ℚ) < input)) = [] := by
        apply List.filter_eq_nil_iff.mpr
        intro p hp
        rcases List.mem_cons.mp hp with h | h
        · subst h; simp [not_lt.mpr h2.le]
        · have hk12 := List.pairwise_cons.mp hpRest
          have hk2p := (List.pairwise_cons.mp hk12.2).1 p h
          have : input < (p.1 : ℚ) := by
            calc input < (k2 : ℚ) := h2
              _ < (p.1 : ℚ) := by exact_mod_cast hk2p
          simp [not_lt.mpr this.le]
      simp [distSumBelow, List.filter_append, List.filter_cons, h1, hf1, hf2, distSum]
    rw [hbelow]
    simp only [FitToScale]
    rw [hassoc, fitGo_skip pre k1 d1 ((k2, d2) :: post) _ _ hallPre]
    simp only [fitGo]
    rw [if_neg (ne_of_gt h2), if_pos h2]
    ring
  · -- input above every breakpoint
    intro hall
    exact fitGo_all_lt scale _ _ (fun p hp => hall p.1 p.2 (by simpa using hp))

/-- C3 witness: a run of each branch of `c3_fit_to_scale` on the concrete
scale `[(6,0), (7,14)]`: an exact hit at 7, an interpolation at 13/2, and
the sentinel at 8. -/
theorem c3_fit_to_scale_witness :
    FitToScale [(6, 0), (7, 14)] 7 3 = 3 + distSumBelow [(6, 0), (7, 14)] 7 + 14 ∧
    FitToScale [(6, 0), (7, 14)] (13/2) 3 =
      3 + distSumBelow [(6, 0), (7, 14)] (13/2) + (13/2 - 6) / (7 - 6) * 14 ∧
    FitToScale [(6, 0), (7, 14)] 8 3 = -1 := by
  have H7 := c3_fit_to_scale [(6, 0), (7, 14)] 7 3 (by norm_num)
  have Hm := c3_fit_to_scale [(6, 0), (7, 14)] (13/2) 3 (by norm_num)
  have H8 := c3_fit_to_scale [(6, 0), (7, 14)] 8 3 (by norm_num)
  refine ⟨?_, ?_, ?_⟩
  · simpa using H7.1 7 14 (by norm_num) (by norm_num)
  · simpa using Hm.2.1 [] [] 6 0 7 14 (by norm_num) (by norm_num) (by norm_num)
  · apply H8.2.2
    intro k d hmem
    simp only [List.mem_cons, List.mem_singleton, Prod.mk.injEq,
      List.not_mem_nil, or_false] at hmem
    rcases hmem with ⟨rfl, rfl⟩ | ⟨rfl, rfl⟩ <;> norm_num

theorem truncLoop_char (oth : ℕ) :
    ∀ (te ti : ℕ), ∃ j, j ≤ te ∧
      truncLoop ti te oth = (ti / 10 ^ j, te - j) ∧
      (∀ i < j, u64Max / oth < ti / 10 ^ i) ∧
      (ti / 10 ^ j ≤ u64Max / oth ∨ j = te) := by
  intro te
  induction te with
  | zero =>
    intro ti
    exact ⟨0, le_refl 0, by simp [truncLoop], by omega, Or.inr rfl⟩
  | succ t ih =>
    intro ti
    by_cases hov : u64Max / oth < ti
    · obtain ⟨j, hle, heq, hmin, hend⟩ := ih (ti / 10)
      have hdiv : ∀ i : ℕ, ti / 10 / 10 ^ i = ti / 10 ^ (i + 1) := by
        intro i
        rw [Nat.div_div_eq_div_mul, ← pow_succ']
      refine ⟨j + 1, by omega, ?_, ?_, ?_⟩
      · simp only [truncLoop, if_pos hov]
        rw [heq, hdiv]
        congr 1
        omega
      · intro i hi
        cases i with
        | zero => simpa using hov
        | succ i2 =>
          have := hmin i2 (by omega)
          rwa [hdiv] at this
      · rcases hend with h | h
        · left; rwa [hdiv] at h
        · right; omega
    · exact ⟨0, by omega, by simp [truncLoop, hov], by omega,
        Or.inl (by simpa using not_lt.mp hov)⟩

theorem bigOperand_valid {a b : Acc} (ha : a.valid = true) (hb : b.valid = true) :
    (bigOperand a b).valid = true := by
  unfold bigOperand; split <;> assumption

/-- C5: `operator*=` on two valid values multiplies the `uint64_t`
magnitudes, adds the exponents (as `uint32_t`) and xors the signs when no
overflow is detected; on detected overflow it repeatedly drops the lowest
decimal digit of the operand with the larger exponent, decrementing that
exponent, until the product fits, and it reaches the `Infinite` error
state precisely when the product still overflows with that exponent at
zero.  `ExactDecimal("123.456")` squared is exactly `(15241383936, 6)`,
whose value is exactly 15241.383936. -/
theorem c5_multiplication :
    (∀ a b : Acc, a.valid = true → b.valid = true →
      (¬ mulOverflows a b →
         mulAssign a b = ⟨true, a.err, a.intv * b.intv, (a.exp + b.exp) % u32Mod,
           xor a.neg b.neg⟩) ∧
      (mulOverflows a b →
         (((mulAssign a b).valid = false) ↔
            u64Max / (smallOperand a b).intv <
              (bigOperand a b).intv / 10 ^ (bigOperand a b).exp) ∧
         ((mulAssign a b).valid = false → mulAssign a b = invalidate .inf) ∧
         (∀ j, j ≤ (bigOperand a b).exp →
            (bigOperand a b).intv / 10 ^ j ≤ u64Max / (smallOperand a b).intv →
            (∀ i < j, u64Max / (smallOperand a b).intv < (bigOperand a b).intv / 10 ^ i) →
            mulAssign a b = ⟨true, (bigOperand a b).err,
              (bigOperand a b).intv / 10 ^ j * (smallOperand a b).intv,
              ((bigOperand a b).exp - j + (smallOperand a b).exp) % u32Mod,
              xor (bigOperand a b).neg (smallOperand a b).neg⟩))) ∧
    mulAssign (fromString "123.456") (fromString "123.456") =
      ⟨true, .noError, 15241383936, 6, false⟩ ∧
    toRatQ (mulAssign (fromString "123.456") (fromString "123.456")) =
      some 15241.383936 := by
  refine ⟨fun a b ha hb => ?_, by decide, ?_⟩
  · have hm : mulAssign a b =
        if mulOverflows a b then
          (if u64Max / (smallOperand a b).intv <
              (truncLoop (bigOperand a b).intv (bigOperand a b).exp (smallOperand a b).intv).1
           then invalidate .inf
           else ⟨(bigOperand a b).valid, (bigOperand a b).err,
             (truncLoop (bigOperand a b).intv (bigOperand a b).exp (smallOperand a b).intv).1
               * (smallOperand a b).intv,
             ((truncLoop (bigOperand a b).intv (bigOperand a b).exp (smallOperand a b).intv).2
               + (smallOperand a b).exp) % u32Mod,
             xor (bigOperand a b).neg (smallOperand a b).neg⟩)
        else ⟨a.valid, a.err, a.intv * b.intv, (a.exp + b.exp) % u32Mod, xor a.neg b.neg⟩ := by
      simp only [mulAssign, ha, hb]
      norm_num
    constructor
    · intro hno
      rw [hm, if_neg hno, ha]
    · intro hov
      rw [hm, if_pos hov]
      obtain ⟨j0, hle0, heq0, hmin0, hend0⟩ :=
        truncLoop_char (smallOperand a b).intv (bigOperand a b).exp (bigOperand a b).intv
      rw [heq0]
      by_cases hfit : u64Max / (smallOperand a b).intv <
          (bigOperand a b).intv / 10 ^ j0
      · have hj0 : j0 = (bigOperand a b).exp := by
          rcases hend0 with h | h
          · omega
          · exact h
        rw [if_pos hfit]
        refine ⟨⟨fun _ => hj0 ▸ hfit, fun _ => rfl⟩, fun _ => rfl, ?_⟩
        intro j hj hjfit hjmin
        exfalso
        have hjle : j ≤ j0 := hj0 ▸ hj
        rcases Nat.lt_or_ge j j0 with h | h
        · exact absurd hjfit (not_le.mpr (hmin0 j h))
        · have : j = j0 := le_antisymm hjle h
          subst this
          exact absurd hjfit (not_le.mpr hfit)
      · rw [if_neg hfit]
        have hbv := bigOperand_valid ha hb
        refine ⟨?_, ?_, ?_⟩
        · simp only [hbv]
          constructor
          · intro h; cases h
          · intro h
            exfalso
            have h1 : (bigOperand a b).intv / 10 ^ (bigOperand a b).exp ≤
                (bigOperand a b).intv / 10 ^ j0 :=
              Nat.div_le_div_left (Nat.pow_le_pow_right (by norm_num) hle0)
                (Nat.pos_pow_of_pos j0 (by norm_num))
            omega
        · intro h
          rw [hbv] at h
          cases h
        · intro j hj hjfit hjmin
          have hjeq : j = j0 := by
            rcases Nat.lt_or_ge j j0 with h | h
            · exact absurd hjfit (not_le.mpr (hmin0 j h))
            · rcases Nat.lt_or_ge j0 j with h2 | h2
              · exact absurd (not_lt.mp hfit) (not_le.mpr (hjmin j0 h2))
              · omega
          subst hjeq
          rw [hbv]
  · rw [show mulAssign (fromString "123.456") (fromString "123.456") =
        ⟨true, .noError, 15241383936, 6, false⟩ from by decide]
    norm_num [toRatQ]

/-- C5 witness: `c5_multiplication` applied on the non-overflow path
(3·10⁻² times -5·10⁻¹) and on the truncation path (10¹⁹·10⁻³ times 4,
which drops one digit). -/
theorem c5_multiplication_witness :
    mulAssign ⟨true, .noError, 3, 2, false⟩ ⟨true, .noError, 5, 1, true⟩ =
      ⟨true, .noError, 15, 3 % u32Mod, true⟩ ∧
    mulAssign ⟨true, .noError, 10 ^ 19, 3, false⟩ ⟨true, .noError, 4, 0, false⟩ =
      ⟨true, .noError, 4000000000000000000, 2, false⟩ := by
  constructor
  · exact (c5_multiplication.1 _ _ rfl rfl).1 (by decide)
  · have H := (c5_multiplication.1 ⟨true, .noError, 10 ^ 19, 3, false⟩
      ⟨true, .noError, 4, 0, false⟩ rfl rfl).2 (by decide)
    have h1 := H.2.2 1 (by decide) (by decide) (by decide)
    rw [h1]
    decide

/-- C7 counterexample: `operator+=` with a valid receiver and an invalid
(NaN) right operand does not taint the receiver: the result is the
receiver unchanged and still valid, where the claim requires an invalid
result carrying the operand's error state. -/
theorem c7_add_no_taint :
    addAssign ⟨true, .noError, 1, 0, false⟩ (invalidate .nan) =
      ⟨true, .noError, 1, 0, false⟩ ∧
    (addAssign ⟨true, .noError, 1, 0, false⟩ (invalidate .nan)).valid = true := by
  decide

/-- C7 (amended): an invalid receiver makes all four operators a no-op; an
invalid right operand taints only `operator*=` (which invalidates with
that operand's error state), while `/=`, `+=` and `-=` return the valid
receiver unchanged; and no operator ever turns an invalid receiver back
into a valid value. -/
theorem c7_error_propagation (core : Acc → Acc → Acc) (a b : Acc) :
    (a.valid = false →
       mulAssign a b = a ∧ divAssign core a b = a ∧
       addAssign a b = a ∧ subAssign a b = a) ∧
    (a.valid = true → b.valid = false →
       mulAssign a b = invalidate b.err ∧ divAssign core a b = a ∧
       addAssign a b = a ∧ subAssign a b = a) ∧
    ((mulAssign a b).valid = true → a.valid = true) ∧
    ((divAssign core a b).valid = true → a.valid = true) ∧
    ((addAssign a b).valid = true → a.valid = true) ∧
    ((subAssign a b).valid = true → a.valid = true) := by
  by_cases ha : a.valid = true
  · refine ⟨?_, ?_, fun _ => ha, fun _ => ha, fun _ => ha, fun _ => ha⟩
    · intro h
      rw [h] at ha
      exact absurd ha (by simp)
    · intro _ hbf
      exact ⟨by simp [mulAssign, ha, hbf], by simp [divAssign, hbf],
             by simp [addAssign, hbf], by simp [subAssign, addAssign, hbf]⟩
  · have haf : a.valid = false := by simpa using ha
    have h1 : mulAssign a b = a := by simp [mulAssign, haf]
    have h2 : divAssign core a b = a := by simp [divAssign, haf]
    have h3 : addAssign a b = a := by simp [addAssign, haf]
    have h4 : subAssign a b = a := by simp [subAssign, addAssign, haf]
    refine ⟨fun _ => ⟨h1, h2, h3, h4⟩, fun h => absurd h ha, ?_, ?_, ?_, ?_⟩
    · rw [h1]; exact fun h => h
    · rw [h2]; exact fun h => h
    · rw [h3]; exact fun h => h
    · rw [h4]; exact fun h => h

/-- C7 witness: `c7_error_propagation` run with a concrete stub core, an
invalid receiver (no-op) and an invalid right operand (tainting `*=`,
no-op for `/=`). -/
theorem c7_error_propagation_witness :
    addAssign (invalidate .nan) ⟨true, .noError, 1, 0, false⟩ = invalidate .nan ∧
    mulAssign ⟨true, .noError, 1, 0, false⟩ (invalidate .inf) = invalidate .inf ∧
    divAssign (fun x _ => x) ⟨true, .noError, 1, 0, false⟩ (invalidate .inf) =
      ⟨true, .noError, 1, 0, false⟩ := by
  refine ⟨(c7_error_propagation (fun x _ => x) (invalidate .nan)
    ⟨true, .noError, 1, 0, false⟩).1 rfl |>.2.2.1, ?_, ?_⟩
  · exact ((c7_error_propagation (fun x _ => x) ⟨true, .noError, 1, 0, false⟩
      (invalidate .inf)).2.1 rfl rfl).1
  · exact ((c7_error_propagation (fun x _ => x) ⟨true, .noError, 1, 0, false⟩
      (invalidate .inf)).2.1 rfl rfl).2.1

/-- C8 counterexample: the claim has the positive-sci-exponent path fail
only on a proper underflow (`d - E < 0`), so `"1.5e1"` (one fractional
digit, exponent 1, `d - E = 0`) should parse to `(15, 0)`; the source's
test `exp_ <= sci_exp` (accuracy_type.cpp:292) also fails at equality and
invalidates to `Infinite`. -/
theorem c8_equal_exponent_rejected :
    fromString "1.5e1" = invalidate .inf ∧
    (fromString "1.5e1" = ⟨true, .noError, 15, 0, false⟩ → False) := by
  decide

/-- C8 (amended): for an accepted decimal string with fractional digit
count `d` and scientific exponent `E`: a non-positive `E` adds `|E|` to
the exponent and succeeds; a positive `E` fails to the `Infinite` state
exactly when `d ≤ E` (equality included), and otherwise succeeds with
exponent `d - E`.  Checked at string level on both branches. -/
theorem c8_sci_exponent_merge :
    (∀ (e0 : ℕ) (E : ℤ),
       (E ≤ 0 → MergeSciExponent e0 E = some ((e0 + E.natAbs) % u32Mod)) ∧
       (0 < E → (MergeSciExponent e0 E = Option.none ↔ (e0 : ℤ) ≤ E)) ∧
       (0 < E → (E : ℤ) < (e0 : ℤ) → MergeSciExponent e0 E = some (e0 - E.toNat))) ∧
    fromString "1.55e1" = ⟨true, .noError, 155, 1, false⟩ ∧
    fromString "1.5e-1" = ⟨true, .noError, 15, 2, false⟩ ∧
    fromString "12.23456e2" = ⟨true, .noError, 1223456, 3, false⟩ := by
  refine ⟨fun e0 E => ⟨?_, ?_, ?_⟩, by decide, by decide, by decide⟩
  · intro hE
    simp [MergeSciExponent, hE]
  · intro hE
    simp only [MergeSciExponent, if_neg (not_le.mpr hE)]
    constructor
    · intro h
      by_cases hle : e0 ≤ E.toNat
      · omega
      · rw [if_neg hle] at h
        cases h
    · intro h
      rw [if_pos (show e0 ≤ E.toNat by omega)]
  · intro hE hlt
    have hnle : ¬ e0 ≤ E.toNat := by omega
    simp [MergeSciExponent, if_neg (not_le.mpr hE), hnle]

/-- C8 witness: the three merge branches of `c8_sci_exponent_merge` at
concrete exponents. -/
theorem c8_sci_exponent_merge_witness :
    MergeSciExponent 3 (-2) = some ((3 + Int.natAbs (-2)) % u32Mod) ∧
    (MergeSciExponent 1 1 = Option.none ↔ (1 : ℤ) ≤ 1) ∧
    MergeSciExponent 5 2 = some (5 - Int.toNat 2) := by
  have H := c8_sci_exponent_merge.1
  exact ⟨(H 3 (-2)).1 (by norm_num), (H 1 1).2.1 (by norm_num),
    (H 5 2).2.2 (by norm_num) (by norm_num)⟩

/-- C6 counterexample: the claim has each H correction curve evaluate a
degree-5 polynomial over six coefficients, fed from a 4×6 calibration
table; the source constant `Calculator::kH` (like the
`CorrectionContext::H_GetCoefficients` array type) holds three
coefficients per curve, already for curve 0. -/
theorem c6_h_coefficient_count : (kHrow 0).length = 3 ∧ ((kHrow 0).length = 6 → False) := by
  decide

/-- C6 (amended): inside the fitted domain each of the four H curves is
computed by the 3-coefficient logistic `l / (1 + exp(-k*(x - x0)))` of
`impl::LogisticalFunc` — not a degree-5 polynomial — and the result
mapped through `value / pixel_scale / 10 - 0.3`; the calibration table
supplies 4×3 H coefficients. -/
theorem c6_h_curves_logistic (e : ℚ → ℚ) (pos : ℚ) (hv : ValidateXH pos = true) :
    ∀ i < 4, (computeH e pos).getD i 0 =
        (kHrow i).headD 0 / (1 + e (-(kHrow i).getD 1 0 * (pos - (kHrow i).getD 2 0)))
          / kPixelsCorrectionScale / 10 - 0.3 ∧
      (kHrow i).length = 3 := by
  intro i hi
  interval_cases i <;>
    simp [computeH, hv, logisticEval, kHrow, kH, List.range, List.range.loop]

/-- C6 witness: the amended statement evaluated for curve 0 at position 150
with a concrete exponential stub. -/
theorem c6_h_curves_logistic_witness :
    (computeH (fun _ => 0) 150).getD 0 0 =
        (kHrow 0).headD 0 / (1 + (fun (_ : ℚ) => (0 : ℚ)) (-(kHrow 0).getD 1 0 * (150 - (kHrow 0).getD 2 0)))
          / kPixelsCorrectionScale / 10 - 0.3 ∧
      (kHrow 0).length = 3 := by
  exact c6_h_curves_logistic (fun _ => 0) 150 (by norm_num [ValidateXH]) 0 (by norm_num)

end VCCore
